import Mathlib

/-!
Shallow embedding of `kb4_train.py` (KnowBe4 training reporting).

The two pieces of the program with real logic are embedded here:

* `paginated_get` models `KnowBe4ReportGenerator._paginated_get` (lines 45-99).
  The HTTP layer is abstracted as an oracle mapping a page number to what that
  round-trip does (the library call raises before a response exists, a response
  arrives but `raise_for_status` raises, the body is not JSON, or a JSON list
  arrives).  The Python locals that matter are threaded explicitly: the
  accumulator, the page counter, the caller's `params` dict (which the code
  aliases and mutates via `dict.update` when it is non-empty), and whether the
  local variable `response` has ever been assigned, because the
  `except requests.RequestException` handler at line 95 evaluates
  `response.text` and raises `UnboundLocalError` when it has not.
  The `while True` loop is given fuel; running out of fuel is reported as a
  distinguished error so that no claim is settled on a truncated run.

* `analyse_training_data` models the method of the same name (lines 132-194).
  Python dicts for users and enrollments become structures; the `set` of
  untrained ids becomes an insertion-ordered duplicate-free list; the float
  completion rate becomes a rational with round-half-to-even (Python `round`);
  `datetime.strptime(s, %Y-%m-%dT%H:%M:%SZ pattern)` becomes `parseDateZ`,
  mirroring the regex CPython compiles for that format (four-digit year,
  one-or-two-digit ranged fields, case-insensitive literals, full-string
  match) plus the `datetime` constructor's calendar validation, and a parse
  failure becomes the `Except` error the Python `ValueError` is.
  `datetime.now()` is a parameter `now`; Python datetimes compare
  lexicographically on (year, month, day, hour, minute, second, microsecond).
  Python truthiness of `if due_date:` is kept: both a missing due-date and an
  empty string take the falsy branch.

* `generate_report_files` models the post-fetch part of `generate_report`
  (lines 222-250): analysis runs before any file is written, and the
  `except Exception` at line 249 turns any escaping error into a run with no
  output files.
-/

set_option maxRecDepth 40000

namespace KB4

/-- A timestamp with the comparable fields of a Python `datetime` value.
`datetime.strptime` without a `%f` directive yields `microsecond = 0`;
`datetime.now()` generally has a non-zero microsecond field. -/
structure PyDateTime where
  year : Nat
  month : Nat
  day : Nat
  hour : Nat
  minute : Nat
  second : Nat
  microsecond : Nat
deriving DecidableEq, Repr

/-- Lexicographic strict order on lists of naturals, used to model comparison
of Python `datetime` values field by field. -/
def lexLt : List Nat → List Nat → Bool
  | [], [] => false
  | [], _ :: _ => true
  | _ :: _, [] => false
  | a :: as, b :: bs => if a < b then true else if b < a then false else lexLt as bs

/-- Field list of a `PyDateTime`, most significant first. -/
def PyDateTime.fields (d : PyDateTime) : List Nat :=
  [d.year, d.month, d.day, d.hour, d.minute, d.second, d.microsecond]

/-- Python `datetime` comparison `a < b`: lexicographic on the fields. -/
def PyDateTime.lt (a b : PyDateTime) : Bool := lexLt a.fields b.fields

/-- Numeric value of a decimal digit character (meaningful when `c.isDigit`). -/
def digitVal (c : Char) : Nat := c.toNat - 48

/-- Gregorian leap-year rule, as Python's `calendar`/`datetime` use. -/
def isLeap (y : Nat) : Bool :=
  y % 4 == 0 && (y % 100 != 0 || y % 400 == 0)

/-- Number of days in a month, as validated by the `datetime` constructor. -/
def daysInMonth (y m : Nat) : Nat :=
  if m == 2 then (if isLeap y then 29 else 28)
  else if m == 4 || m == 6 || m == 9 || m == 11 then 30 else 31

/-- Longest prefix of ASCII decimal digits of a character list, together with
the remainder.  Because every separator in the format below is a non-digit,
the regex CPython compiles for `strptime` always assigns a numeric directive
the whole digit run in front of its separator (backtracking cannot move a
digit across a non-digit literal), so maximal-run scanning is exact. -/
def takeDigits : List Char → List Char × List Char
  | [] => ([], [])
  | c :: rest =>
    if c.isDigit then
      let (ds, r) := takeDigits rest
      (c :: ds, r)
    else ([], c :: rest)

/-- Numeric value of a digit run. -/
def digitsVal (ds : List Char) : Nat :=
  ds.foldl (fun a c => a * 10 + digitVal c) 0

/-- Consume a maximal digit run followed by one separator character accepted
by `sep`; return the run and the rest of the input. -/
def field (sep : Char → Bool) (cs : List Char) : Option (List Char × List Char) :=
  let (ds, r) := takeDigits cs
  match r with
  | c :: rest => if sep c then some (ds, rest) else none
  | [] => none

/-- Embedding of `datetime.strptime(s, ...)` with the pattern
`%Y-%m-%dT%H:%M:%SZ` (line 166), following CPython's `_strptime`: the format
compiles to a case-insensitive regex that must consume the whole string, with
exactly four digits for `%Y`, and one or two digits for each of `%m` (1-12),
`%d` (1-31), `%H` (0-23), `%M` (0-59) and `%S` — so non-zero-padded fields
such as `2025-1-1T0:0:0Z` and lowercase `t`/`z` literals are accepted.  The
`datetime` constructor then validates the calendar (year at least 1, day
within the month) and rejects the leap seconds 60 and 61 that the `%S` regex
alone would admit, so those also raise.  Digits are ASCII decimal digits.
A `none` result corresponds to the Python `ValueError`. -/
def parseDateZ (s : String) : Option PyDateTime :=
  match field (fun c => c == '-') s.toList with
  | none => none
  | some (ys, r1) =>
  match field (fun c => c == '-') r1 with
  | none => none
  | some (ms, r2) =>
  match field (fun c => c == 'T' || c == 't') r2 with
  | none => none
  | some (ds, r3) =>
  match field (fun c => c == ':') r3 with
  | none => none
  | some (hs, r4) =>
  match field (fun c => c == ':') r4 with
  | none => none
  | some (ns, r5) =>
  match field (fun c => c == 'Z' || c == 'z') r5 with
  | none => none
  | some (ss, r6) =>
  if r6 = [] then
    let yr := digitsVal ys
    let mo := digitsVal ms
    let da := digitsVal ds
    let ho := digitsVal hs
    let mi := digitsVal ns
    let se := digitsVal ss
    if ys.length = 4 ∧ 1 ≤ yr ∧
        1 ≤ ms.length ∧ ms.length ≤ 2 ∧ 1 ≤ mo ∧ mo ≤ 12 ∧
        1 ≤ ds.length ∧ ds.length ≤ 2 ∧ 1 ≤ da ∧ da ≤ daysInMonth yr mo ∧
        1 ≤ hs.length ∧ hs.length ≤ 2 ∧ ho ≤ 23 ∧
        1 ≤ ns.length ∧ ns.length ≤ 2 ∧ mi ≤ 59 ∧
        1 ≤ ss.length ∧ ss.length ≤ 2 ∧ se ≤ 59 then
      some ⟨yr, mo, da, ho, mi, se, 0⟩
    else none
  else none

/-- A user record from the `/users` endpoint: the required identity fields the
code reads directly, the optional `manager_name`, and the open set of further
attributes that configured optional field names may select via
`user.get(field, N/A default)`. -/
structure User where
  id : Nat
  first_name : String
  last_name : String
  email : String
  manager_name : Option String
  extra : List (String × String)
deriving DecidableEq, Repr

/-- An enrollment record: `enrollment.user.id`, `enrollment.campaign_name`
(both required by the code), and the `status` and `due_date` fields read with
`dict.get` (so possibly absent). -/
structure Enrollment where
  user_id : Nat
  campaign_name : String
  status : Option String
  due_date : Option String
deriving DecidableEq, Repr

/-- The analysis error: the `ValueError` raised by `datetime.strptime` on a
due-date string that does not match the expected format. -/
inductive AnalysisError where
  | dateParse (s : String) : AnalysisError
deriving DecidableEq, Repr

/-- Adding an element to the untrained set, modelled as an insertion-ordered
duplicate-free list: a no-op when already present, append otherwise. -/
def addNew (l : List Nat) (x : Nat) : List Nat :=
  if x ∈ l then l else l ++ [x]

/-- One iteration of the classification loop of `analyse_training_data`
(lines 162-170): a mandatory-campaign enrollment whose status is not
`Completed` or `Passed` adds its user id when the due-date is falsy
(absent or the empty string) or parses to a time strictly before `now`;
a due-date that is truthy but unparseable raises. -/
def untrainedStep (mandatory : List String) (now : PyDateTime) (acc : List Nat)
    (e : Enrollment) : Except AnalysisError (List Nat) :=
  if e.campaign_name ∈ mandatory then
    if e.status = some "Completed" ∨ e.status = some "Passed" then .ok acc
    else
      match e.due_date with
      | some s =>
        if s = "" then .ok (addNew acc e.user_id)
        else
          match parseDateZ s with
          | none => .error (.dateParse s)
          | some d => .ok (if PyDateTime.lt d now then addNew acc e.user_id else acc)
      | none => .ok (addNew acc e.user_id)
  else .ok acc

/-- The enrollment loop of `analyse_training_data` (line 151), restricted to
the state it actually uses downstream (the `user_enrollments` grouping built
at lines 157-160 is never read afterwards). -/
def untrainedLoop (mandatory : List String) (now : PyDateTime) :
    List Enrollment → List Nat → Except AnalysisError (List Nat)
  | [], acc => .ok acc
  | e :: es, acc =>
    match untrainedStep mandatory now acc e with
    | .error err => .error err
    | .ok acc2 => untrainedLoop mandatory now es acc2

/-- The untrained-id set computed by `analyse_training_data`. -/
def untrainedIds (mandatory : List String) (now : PyDateTime)
    (enrollments : List Enrollment) : Except AnalysisError (List Nat) :=
  untrainedLoop mandatory now enrollments []

/-- The `user_lookup` dict comprehension of line 145: last write wins on a
duplicated id, so look from the back. -/
def userLookup (users : List User) (uid : Nat) : Option User :=
  users.reverse.find? (fun u => u.id == uid)

/-- Lookup of a configured optional attribute on a user record,
`user.get(field)` over the open attribute set. -/
def User.getField (u : User) (field : String) : Option String :=
  (u.extra.find? (fun p => p.1 == field)).map (fun p => p.2)

/-- One untrained-user detail row (lines 172-180). -/
structure Row where
  name : String
  email : String
  manager : String
  extras : List (String × String)
deriving DecidableEq, Repr

/-- Building one detail row from a user record (lines 174-177). -/
def mkRow (optionalFields : List String) (u : User) : Row :=
  { name := u.first_name ++ " " ++ u.last_name
    email := u.email
    manager := u.manager_name.getD "N/A"
    extras := optionalFields.map (fun f => (f, (u.getField f).getD "N/A")) }

/-- The untrained-user detail rows (lines 172-180): one row per untrained id
that is present in the user lookup, in untrained-set order; ids absent from
the lookup are dropped. -/
def untrainedRows (users : List User) (optionalFields : List String)
    (ids : List Nat) : List Row :=
  ids.filterMap (fun uid => (userLookup users uid).map (mkRow optionalFields))

/-- Parity test on an integer, for round-half-to-even. -/
def evenInt (n : ℤ) : Bool := n % 2 == 0

/-- Python `round` to an integer: round half to even. -/
def roundHalfEven (q : ℚ) : ℤ :=
  let n := ⌊q⌋
  let f := q - n
  if f < 1/2 then n
  else if 1/2 < f then n + 1
  else if evenInt n then n else n + 1

/-- Python `round(x, 2)`: round half to even at two decimal places. -/
def round2 (q : ℚ) : ℚ := (roundHalfEven (q * 100) : ℚ) / 100

/-- The aggregate metrics of the report (lines 188-192). -/
structure Metrics where
  totalUsers : Nat
  totalUntrained : Nat
  completionRate : ℚ
deriving DecidableEq, Repr

/-- The value returned by `analyse_training_data` (lines 187-194). -/
structure Report where
  metrics : Metrics
  untrained_users : List Row
deriving DecidableEq, Repr

/-- Embedding of `analyse_training_data` (lines 132-194). -/
def analyse_training_data (optionalFields : List String) (users : List User)
    (enrollments : List Enrollment) (mandatory : List String)
    (now : PyDateTime) : Except AnalysisError Report :=
  match untrainedIds mandatory now enrollments with
  | .error err => .error err
  | .ok ids =>
    let total := users.length
    let untrained := ids.length
    let rate : ℚ :=
      if total = 0 then 0
      else (((total : ℤ) - (untrained : ℤ) : ℚ) / (total : ℚ)) * 100
    .ok { metrics := { totalUsers := total
                       totalUntrained := untrained
                       completionRate := round2 rate }
          untrained_users := untrainedRows users optionalFields ids }

/-- A query-parameter value: KnowBe4 filters are strings, the pagination
fields are numbers. -/
inductive PVal where
  | str (s : String) : PVal
  | num (n : Nat) : PVal
deriving DecidableEq, Repr

/-- A Python dict of query parameters, as an insertion-ordered association
list. -/
abbrev Params := List (String × PVal)

/-- Python `dict` assignment of one key, as `dict.update` performs per key:
overwrite in place when the key is present, append otherwise. -/
def updateKey : Params → String → PVal → Params
  | [], k, v => [(k, v)]
  | (k2, v2) :: rest, k, v =>
    if k2 = k then (k, v) :: rest else (k2, v2) :: updateKey rest k v

/-- Dict lookup on the association list. -/
def lookupKey (ps : Params) (k : String) : Option PVal :=
  (ps.find? (fun p => p.1 == k)).map (fun p => p.2)

/-- What one HTTP round-trip for a given page number can do, as seen by
`_paginated_get`: `requests.get` itself raises (timeout, connection failure -
no response object is ever assigned); a response arrives and
`raise_for_status` raises on a non-2xx status; a response arrives and
`response.json()` fails; or a JSON list body arrives.  Records are opaque and
modelled as naturals. -/
inductive PageOutcome where
  | raiseInGet : PageOutcome
  | httpError : PageOutcome
  | invalidJson : PageOutcome
  | ok (data : List Nat) : PageOutcome

/-- How a call of `_paginated_get` can fail to return: the `UnboundLocalError`
raised at line 95 when the handler reads `response.text` while `response` was
never assigned, or fuel exhaustion of the model (the Python loop is unbounded). -/
inductive PyError where
  | unboundLocal : PyError
  | outOfFuel : PyError
deriving DecidableEq, Repr

/-- Observable outcome of a `_paginated_get` call: the returned list or the
escaping exception, the final state of the caller's `params` dict, and the
number of HTTP requests issued. -/
structure PGResult where
  result : Except PyError (List Nat)
  finalParams : Params
  requests : Nat

/-- The `while True` loop of `_paginated_get` (lines 60-96).  `bound` records
whether any earlier iteration assigned the local `response`.  Each iteration
first merges `page` and `per_page` into the request dict (lines 61-65; when
the caller's dict is non-empty this is that same dict, mutated), then issues
the request.  On `requests.get` raising with `response` never assigned, the
logging line of the handler raises `UnboundLocalError`; every other failure is
logged and breaks, returning the accumulator; a full page of 500 records
continues to the next page. -/
def pgLoop (oracle : Nat → PageOutcome) :
    Nat → Nat → Bool → List Nat → Params → PGResult
  | 0, _, _, _, ps => { result := .error .outOfFuel, finalParams := ps, requests := 0 }
  | fuel + 1, page, bound, acc, ps =>
    let ps2 := updateKey (updateKey ps "page" (.num page)) "per_page" (.num 500)
    match oracle page with
    | .raiseInGet =>
      if bound then { result := .ok acc, finalParams := ps2, requests := 1 }
      else { result := .error .unboundLocal, finalParams := ps2, requests := 1 }
    | .httpError => { result := .ok acc, finalParams := ps2, requests := 1 }
    | .invalidJson => { result := .ok acc, finalParams := ps2, requests := 1 }
    | .ok data =>
      if data.length = 0 then { result := .ok acc, finalParams := ps2, requests := 1 }
      else if data.length < 500 then
        { result := .ok (acc ++ data), finalParams := ps2, requests := 1 }
      else
        let r := pgLoop oracle fuel (page + 1) true (acc ++ data) ps2
        { r with requests := r.requests + 1 }

/-- Embedding of `_paginated_get` (lines 45-99).  When the caller passes no
params or an empty dict, `params or` falls through to a fresh empty dict on
every iteration and the caller's mapping is untouched; a non-empty caller
dict is aliased by `request_params` and mutated in place by `update`. -/
def paginated_get (oracle : Nat → PageOutcome) (fuel : Nat)
    (params : Params) : PGResult :=
  if params.isEmpty then
    let r := pgLoop oracle fuel 1 false [] []
    { r with finalParams := params }
  else
    pgLoop oracle fuel 1 false [] params

/-- Number of records returned by a `_paginated_get` call (zero when an
exception escapes instead). -/
def PGResult.count (r : PGResult) : Nat :=
  match r.result with
  | .ok l => l.length
  | .error _ => 0

/-- Boolean form of the condition under which the enrollment loop raises on an
enrollment: mandatory campaign, non-terminal status, and a truthy due-date
string that fails to parse. -/
def raisesB (mandatory : List String) (e : Enrollment) : Bool :=
  decide (e.campaign_name ∈ mandatory) &&
    !(e.status == some "Completed" || e.status == some "Passed") &&
    (match e.due_date with
     | none => false
     | some s => !(s == "") && (parseDateZ s).isNone)

/-- Boolean form of the condition under which an enrollment adds its user id
to the untrained set: mandatory campaign, non-terminal status, and a falsy
due-date or one parsing to a time strictly before `now`. -/
def marksB (mandatory : List String) (now : PyDateTime) (e : Enrollment) : Bool :=
  decide (e.campaign_name ∈ mandatory) &&
    !(e.status == some "Completed" || e.status == some "Passed") &&
    (match e.due_date with
     | none => true
     | some s =>
       s == "" ||
         (match parseDateZ s with
          | none => false
          | some d => PyDateTime.lt d now))

theorem untrainedStep_spec (mandatory : List String) (now : PyDateTime)
    (acc : List Nat) (e : Enrollment) :
    untrainedStep mandatory now acc e =
      if raisesB mandatory e then .error (.dateParse (e.due_date.getD ""))
      else .ok (if marksB mandatory now e then addNew acc e.user_id else acc) := by
  rcases e with ⟨uid, camp, st, due⟩
  by_cases hc : camp ∈ mandatory
  · by_cases hst : st = some "Completed" ∨ st = some "Passed"
    · have hb : (st == some "Completed" || st == some "Passed") = true := by
        rcases hst with h | h <;> simp [h]
      cases due with
      | none => simp [untrainedStep, raisesB, marksB, hc, hst, hb]
      | some s => simp [untrainedStep, raisesB, marksB, hc, hst, hb]
    · have hb : (st == some "Completed" || st == some "Passed") = false := by
        rcases h1 : st == some "Completed" with _ | _
        · rcases h2 : st == some "Passed" with _ | _
          · simp
          · exact absurd (Or.inr (eq_of_beq h2)) hst
        · exact absurd (Or.inl (eq_of_beq h1)) hst
      cases due with
      | none => simp [untrainedStep, raisesB, marksB, hc, hst, hb]
      | some s =>
        by_cases hs : s = ""
        · subst hs
          simp [untrainedStep, raisesB, marksB, hc, hst, hb]
        · cases hp : parseDateZ s with
          | none =>
            simp [untrainedStep, raisesB, marksB, hc, hst, hb, hs, hp]
          | some d =>
            cases hlt : PyDateTime.lt d now <;>
              simp [untrainedStep, raisesB, marksB, hc, hst, hb, hs, hp, hlt]
  · simp [untrainedStep, raisesB, marksB, hc]

theorem mem_addNew (l : List Nat) (x y : Nat) :
    x ∈ addNew l y ↔ x ∈ l ∨ x = y := by
  unfold addNew
  by_cases h : y ∈ l
  · rw [if_pos h]
    constructor
    · exact Or.inl
    · rintro (hx | rfl)
      · exact hx
      · exact h
  · rw [if_neg h]
    simp [List.mem_append]

theorem addNew_nodup {l : List Nat} (h : l.Nodup) (y : Nat) :
    (addNew l y).Nodup := by
  unfold addNew
  by_cases hy : y ∈ l
  · rw [if_pos hy]; exact h
  · rw [if_neg hy]
    rw [List.nodup_append]
    exact ⟨h, List.nodup_singleton y, by simpa [List.disjoint_singleton] using hy⟩

theorem untrainedLoop_mem (mandatory : List String) (now : PyDateTime) :
    ∀ (es : List Enrollment) (acc l : List Nat),
      untrainedLoop mandatory now es acc = .ok l →
      ∀ x, x ∈ l ↔ x ∈ acc ∨ ∃ e ∈ es, e.user_id = x ∧ marksB mandatory now e = true := by
  intro es
  induction es with
  | nil =>
    intro acc l h x
    simp only [untrainedLoop] at h
    cases h
    simp
  | cons e rest ih =>
    intro acc l h x
    simp only [untrainedLoop, untrainedStep_spec] at h
    by_cases hr : raisesB mandatory e
    · rw [if_pos hr] at h; cases h
    · rw [if_neg hr] at h
      simp only at h
      by_cases hm : marksB mandatory now e
      · rw [if_pos hm] at h
        rw [ih _ _ h x, mem_addNew]
        constructor
        · rintro ((hx | rfl) | ⟨f, hf, rfl, hfm⟩)
          · exact Or.inl hx
          · exact Or.inr ⟨e, List.mem_cons_self e rest, rfl, hm⟩
          · exact Or.inr ⟨f, List.mem_cons_of_mem e hf, rfl, hfm⟩
        · rintro (hx | ⟨f, hf, rfl, hfm⟩)
          · exact Or.inl (Or.inl hx)
          · rcases List.mem_cons.mp hf with rfl | hf2
            · exact Or.inl (Or.inr rfl)
            · exact Or.inr ⟨f, hf2, rfl, hfm⟩
      · rw [if_neg hm] at h
        rw [ih _ _ h x]
        constructor
        · rintro (hx | ⟨f, hf, rfl, hfm⟩)
          · exact Or.inl hx
          · exact Or.inr ⟨f, List.mem_cons_of_mem e hf, rfl, hfm⟩
        · rintro (hx | ⟨f, hf, rfl, hfm⟩)
          · exact Or.inl hx
          · rcases List.mem_cons.mp hf with rfl | hf2
            · exact absurd hfm (by simpa using hm)
            · exact Or.inr ⟨f, hf2, rfl, hfm⟩

theorem untrainedLoop_ok_of_error_free (mandatory : List String) (now : PyDateTime) :
    ∀ (es : List Enrollment) (acc : List Nat),
      (∀ e ∈ es, raisesB mandatory e = false) →
      ∃ l, untrainedLoop mandatory now es acc = .ok l := by
  intro es
  induction es with
  | nil => intro acc _; exact ⟨acc, rfl⟩
  | cons e rest ih =>
    intro acc h
    have he : raisesB mandatory e = false := h e (List.mem_cons_self e rest)
    simp only [untrainedLoop, untrainedStep_spec, he, Bool.false_eq_true, if_false]
    exact ih _ (fun f hf => h f (List.mem_cons_of_mem e hf))

theorem untrainedLoop_error_free (mandatory : List String) (now : PyDateTime) :
    ∀ (es : List Enrollment) (acc l : List Nat),
      untrainedLoop mandatory now es acc = .ok l →
      ∀ e ∈ es, raisesB mandatory e = false := by
  intro es
  induction es with
  | nil => intro acc l _ e he; cases he
  | cons f rest ih =>
    intro acc l h e he
    simp only [untrainedLoop, untrainedStep_spec] at h
    by_cases hr : raisesB mandatory f
    · rw [if_pos hr] at h; cases h
    · rw [if_neg hr] at h
      simp only at h
      rcases List.mem_cons.mp he with rfl | he2
      · simpa using hr
      · exact ih _ _ h e he2

theorem untrainedLoop_nodup (mandatory : List String) (now : PyDateTime) :
    ∀ (es : List Enrollment) (acc l : List Nat),
      acc.Nodup → untrainedLoop mandatory now es acc = .ok l → l.Nodup := by
  intro es
  induction es with
  | nil =>
    intro acc l ha h
    simp only [untrainedLoop] at h
    cases h
    exact ha
  | cons e rest ih =>
    intro acc l ha h
    simp only [untrainedLoop, untrainedStep_spec] at h
    by_cases hr : raisesB mandatory e
    · rw [if_pos hr] at h; cases h
    · rw [if_neg hr] at h
      simp only at h
      by_cases hm : marksB mandatory now e
      · rw [if_pos hm] at h
        exact ih _ _ (addNew_nodup ha e.user_id) h
      · rw [if_neg hm] at h
        exact ih _ _ ha h

theorem untrainedLoop_append (mandatory : List String) (now : PyDateTime) :
    ∀ (xs ys : List Enrollment) (acc : List Nat),
      untrainedLoop mandatory now (xs ++ ys) acc =
        (match untrainedLoop mandatory now xs acc with
         | .error err => .error err
         | .ok a => untrainedLoop mandatory now ys a) := by
  intro xs
  induction xs with
  | nil => intro ys acc; rfl
  | cons e rest ih =>
    intro ys acc
    simp only [List.cons_append, untrainedLoop]
    cases untrainedStep mandatory now acc e with
    | error err => rfl
    | ok acc2 => exact ih ys acc2

theorem addNew_filter_congr (uid : Nat) {a b : List Nat}
    (h : a.filter (fun x => !(x == uid)) = b.filter (fun x => !(x == uid))) (y : Nat) :
    (addNew a y).filter (fun x => !(x == uid)) =
      (addNew b y).filter (fun x => !(x == uid)) := by
  by_cases hy : y = uid
  · subst hy
    have ha : (addNew a y).filter (fun x => !(x == y)) = a.filter (fun x => !(x == y)) := by
      unfold addNew
      by_cases hmem : y ∈ a
      · rw [if_pos hmem]
      · rw [if_neg hmem, List.filter_append]
        simp
    have hb2 : (addNew b y).filter (fun x => !(x == y)) = b.filter (fun x => !(x == y)) := by
      unfold addNew
      by_cases hmem : y ∈ b
      · rw [if_pos hmem]
      · rw [if_neg hmem, List.filter_append]
        simp
    rw [ha, hb2, h]
  · have hmem : y ∈ a ↔ y ∈ b := by
      constructor
      · intro hy2
        have : y ∈ a.filter (fun x => !(x == uid)) :=
          List.mem_filter.mpr ⟨hy2, by simp [hy]⟩
        rw [h] at this
        exact (List.mem_filter.mp this).1
      · intro hy2
        have : y ∈ b.filter (fun x => !(x == uid)) :=
          List.mem_filter.mpr ⟨hy2, by simp [hy]⟩
        rw [← h] at this
        exact (List.mem_filter.mp this).1
    unfold addNew
    by_cases hmem2 : y ∈ a
    · rw [if_pos hmem2, if_pos (hmem.mp hmem2)]
      exact h
    · rw [if_neg hmem2, if_neg (fun hb3 => hmem2 (hmem.mpr hb3))]
      rw [List.filter_append, List.filter_append, h]

theorem untrainedLoop_filter_congr (mandatory : List String) (now : PyDateTime) (uid : Nat) :
    ∀ (es : List Enrollment) (a b la : List Nat),
      a.filter (fun x => !(x == uid)) = b.filter (fun x => !(x == uid)) →
      untrainedLoop mandatory now es a = .ok la →
      ∃ lb, untrainedLoop mandatory now es b = .ok lb ∧
        la.filter (fun x => !(x == uid)) = lb.filter (fun x => !(x == uid)) := by
  intro es
  induction es with
  | nil =>
    intro a b la hab ha
    simp only [untrainedLoop] at ha ⊢
    cases ha
    exact ⟨b, rfl, hab⟩
  | cons e rest ih =>
    intro a b la hab ha
    simp only [untrainedLoop, untrainedStep_spec] at ha ⊢
    by_cases hr : raisesB mandatory e
    · rw [if_pos hr] at ha; cases ha
    · rw [if_neg hr] at ha ⊢
      simp only at ha ⊢
      by_cases hm : marksB mandatory now e
      · rw [if_pos hm] at ha ⊢
        exact ih _ _ _ (addNew_filter_congr uid hab e.user_id) ha
      · rw [if_neg hm] at ha ⊢
        exact ih _ _ _ hab ha

theorem filterMap_eq_filterMap_filter {α β : Type} (g : α → Option β) (p : α → Bool)
    (hp : ∀ x, p x = false → g x = none) :
    ∀ l : List α, l.filterMap g = (l.filter p).filterMap g := by
  intro l
  induction l with
  | nil => rfl
  | cons x rest ih =>
    cases hx : p x with
    | false =>
      rw [List.filter_cons_of_neg (by simp [hx])]
      rw [List.filterMap_cons, hp x hx]
      exact ih
    | true =>
      rw [List.filter_cons_of_pos (by simp [hx])]
      rw [List.filterMap_cons, List.filterMap_cons]
      cases g x with
      | none => exact ih
      | some b => rw [ih]

theorem userLookup_eq_none {users : List User} {uid : Nat}
    (h : ∀ u ∈ users, u.id ≠ uid) : userLookup users uid = none := by
  unfold userLookup
  rw [List.find?_eq_none]
  intro u hu
  simp only [beq_iff_eq]
  exact h u (List.mem_reverse.mp hu)

theorem roundHalfEven_le (q : ℚ) : (roundHalfEven q : ℚ) ≤ q + 1/2 := by
  unfold roundHalfEven
  have h1 : (⌊q⌋ : ℚ) ≤ q := Int.floor_le q
  have h2 : q < ⌊q⌋ + 1 := Int.lt_floor_add_one q
  by_cases hlt : q - ⌊q⌋ < 1/2
  · rw [if_pos hlt]
    linarith
  · rw [if_neg hlt]
    by_cases hgt : 1/2 < q - ⌊q⌋
    · rw [if_pos hgt]
      push_cast
      linarith
    · rw [if_neg hgt]
      have heq : q - ⌊q⌋ = 1/2 := le_antisymm (not_lt.mp hgt) (not_lt.mp hlt)
      by_cases he : evenInt ⌊q⌋
      · rw [if_pos he]
        linarith
      · rw [if_neg he]
        push_cast
        linarith

theorem le_roundHalfEven (q : ℚ) : q - 1/2 ≤ (roundHalfEven q : ℚ) := by
  unfold roundHalfEven
  have h1 : (⌊q⌋ : ℚ) ≤ q := Int.floor_le q
  have h2 : q < ⌊q⌋ + 1 := Int.lt_floor_add_one q
  by_cases hlt : q - ⌊q⌋ < 1/2
  · rw [if_pos hlt]
    linarith
  · rw [if_neg hlt]
    by_cases hgt : 1/2 < q - ⌊q⌋
    · rw [if_pos hgt]
      push_cast
      linarith
    · rw [if_neg hgt]
      have heq : q - ⌊q⌋ = 1/2 := le_antisymm (not_lt.mp hgt) (not_lt.mp hlt)
      by_cases he : evenInt ⌊q⌋
      · rw [if_pos he]
        linarith
      · rw [if_neg he]
        push_cast
        linarith

theorem round2_le_of_le {q : ℚ} {b : ℤ} (h : q ≤ (b : ℚ)) : round2 q ≤ (b : ℚ) := by
  unfold round2
  have h1 : (roundHalfEven (q * 100) : ℚ) ≤ q * 100 + 1/2 := roundHalfEven_le _
  have h2 : q * 100 ≤ (b : ℚ) * 100 := by nlinarith
  have h3 : (roundHalfEven (q * 100) : ℚ) < ((100 * b : ℤ) : ℚ) + 1 := by
    push_cast
    linarith
  have h4 : roundHalfEven (q * 100) ≤ 100 * b := by
    have h3b : roundHalfEven (q * 100) < 100 * b + 1 := by
      have : (roundHalfEven (q * 100) : ℚ) < ((100 * b + 1 : ℤ) : ℚ) := by push_cast; linarith
      exact_mod_cast this
    omega
  have h5 : (roundHalfEven (q * 100) : ℚ) ≤ ((100 * b : ℤ) : ℚ) := by
    exact_mod_cast h4
  push_cast at h5
  linarith

theorem round2_nonneg {q : ℚ} (h : 0 ≤ q) : 0 ≤ round2 q := by
  unfold round2
  have h1 : q * 100 - 1/2 ≤ (roundHalfEven (q * 100) : ℚ) := le_roundHalfEven _
  have h2 : (-1 : ℤ) < roundHalfEven (q * 100) := by
    have : (-1 : ℚ) < (roundHalfEven (q * 100) : ℚ) := by nlinarith
    exact_mod_cast this
  have h3 : (0 : ℤ) ≤ roundHalfEven (q * 100) := by omega
  have h4 : (0 : ℚ) ≤ (roundHalfEven (q * 100) : ℚ) := by exact_mod_cast h3
  linarith

theorem lookupKey_updateKey_ne (k k2 : String) (v : PVal) (h : k ≠ k2) :
    ∀ ps : Params, lookupKey (updateKey ps k2 v) k = lookupKey ps k := by
  intro ps
  induction ps with
  | nil =>
    simp only [updateKey, lookupKey, List.find?]
    have : (k2 == k) = false := by
      simp only [beq_eq_false_iff_ne, ne_eq]
      exact fun hk => h hk.symm
    simp [this]
  | cons p rest ih =>
    rcases p with ⟨k3, v3⟩
    simp only [updateKey]
    by_cases h3 : k3 = k2
    · rw [if_pos h3]
      subst h3
      have hk : (k3 == k) = false := by
        simp only [beq_eq_false_iff_ne, ne_eq]
        exact fun hk => h hk.symm
      simp [lookupKey, List.find?, hk]
    · rw [if_neg h3]
      simp only [lookupKey, List.find?]
      cases hk3 : (k3 == k) with
      | true => simp
      | false =>
        simp only [Bool.false_eq_true, if_false]
        exact ih

theorem pgLoop_params_frame (oracle : Nat → PageOutcome) (k : String)
    (h1 : k ≠ "page") (h2 : k ≠ "per_page") :
    ∀ (fuel page : Nat) (bound : Bool) (acc : List Nat) (ps : Params),
      lookupKey (pgLoop oracle fuel page bound acc ps).finalParams k = lookupKey ps k := by
  intro fuel
  induction fuel with
  | zero => intro page bound acc ps; rfl
  | succ n ih =>
    intro page bound acc ps
    have hps2 : ∀ page2 : Nat,
        lookupKey (updateKey (updateKey ps "page" (.num page2)) "per_page" (.num 500)) k =
          lookupKey ps k := by
      intro page2
      rw [lookupKey_updateKey_ne k "per_page" _ h2, lookupKey_updateKey_ne k "page" _ h1]
    simp only [pgLoop]
    cases oracle page with
    | raiseInGet =>
      cases bound with
      | true => exact hps2 page
      | false => exact hps2 page
    | httpError => exact hps2 page
    | invalidJson => exact hps2 page
    | ok data =>
      simp only
      by_cases hz : data.length = 0
      · rw [if_pos hz]
        exact hps2 page
      · rw [if_neg hz]
        by_cases hs : data.length < 500
        · rw [if_pos hs]
          exact hps2 page
        · rw [if_neg hs]
          simp only
          rw [ih]
          exact hps2 page

/-- C2: the claim that `_paginated_get` never raises fails on the code.  When
the very first `requests.get` raises a transport error, the local `response`
was never assigned, so the handler's logging line `response.text` raises
`UnboundLocalError`, which escapes the function instead of returning `[]`.
A transport error on a later page (after a response was assigned) does degrade
to the accumulated partial result, as the claim describes. -/
theorem paginated_get_first_page_transport_error_raises :
    (paginated_get (fun _ => .raiseInGet) 10 [("status", PVal.str "active")]).result =
        .error .unboundLocal ∧
      (paginated_get (fun p => if p = 1 then .ok (List.replicate 500 0) else .raiseInGet)
            10 []).result =
        .ok (List.replicate 500 0) :=
  ⟨rfl, rfl⟩

/-- C6: `_paginated_get` stops exactly at the first short page.  Against a
3-page dataset of 500, 500 and 137 records it returns exactly 1137 records
after exactly three requests; when the first page already has fewer than 500
records it returns exactly that page and issues no second request (even
though the oracle would serve a full second page). -/
theorem paginated_get_termination_scenarios :
    ((paginated_get (fun p => if p ≤ 2 then .ok (List.replicate 500 0)
        else .ok (List.replicate 137 0)) 10 []).count = 1137 ∧
      (paginated_get (fun p => if p ≤ 2 then .ok (List.replicate 500 0)
        else .ok (List.replicate 137 0)) 10 []).requests = 3) ∧
    ((paginated_get (fun p => if p = 1 then .ok (List.replicate 137 0)
        else .ok (List.replicate 500 99)) 10 []).count = 137 ∧
      (paginated_get (fun p => if p = 1 then .ok (List.replicate 137 0)
        else .ok (List.replicate 500 99)) 10 []).requests = 1) :=
  ⟨⟨by decide, by decide⟩, by decide, by decide⟩

/-- C10: counterexample.  The claim that the caller's `params` mapping is
unchanged after a `_paginated_get` call is false: `request_params = params or`
aliases a non-empty caller dict, and `update` inserts `page` and `per_page`
into it in place. -/
theorem paginated_get_mutates_caller_params :
    (paginated_get (fun _ => .ok (List.replicate 7 3)) 10
        [("status", PVal.str "active")]).finalParams =
      [("status", PVal.str "active"), ("page", PVal.num 1), ("per_page", PVal.num 500)] ∧
    [("status", PVal.str "active"), ("page", PVal.num 1), ("per_page", PVal.num 500)] ≠
      ([("status", PVal.str "active")] : Params) :=
  ⟨by decide, by decide⟩

/-- C10 (amended): `_paginated_get` has no caller-visible effect on `params`
beyond the pagination keys: every key other than `page` and `per_page` keeps
its value, and an empty caller mapping is returned unchanged (the code then
builds a fresh dict each iteration). -/
theorem paginated_get_params_frame (oracle : Nat → PageOutcome) (fuel : Nat)
    (params : Params) (k : String) (h1 : k ≠ "page") (h2 : k ≠ "per_page") :
    lookupKey (paginated_get oracle fuel params).finalParams k = lookupKey params k ∧
      (params = [] → (paginated_get oracle fuel params).finalParams = params) := by
  refine ⟨?_, ?_⟩
  · by_cases hps : params = []
    · subst hps
      rfl
    · have hB : params.isEmpty = false := by
        simpa using hps
      unfold paginated_get
      rw [hB]
      simpa using pgLoop_params_frame oracle k h1 h2 fuel 1 false [] params
  · intro hempty
    subst hempty
    rfl

/-- C10: witness for `paginated_get_params_frame` at a concrete call. -/
theorem paginated_get_params_frame_witness :
    ("status" : String) ≠ "page" ∧ ("status" : String) ≠ "per_page" ∧
      (lookupKey (paginated_get (fun _ => .ok (List.replicate 7 3)) 10
            [("status", PVal.str "active")]).finalParams "status" =
          lookupKey [("status", PVal.str "active")] "status" ∧
        (([("status", PVal.str "active")] : Params) = [] →
          (paginated_get (fun _ => .ok (List.replicate 7 3)) 10
              [("status", PVal.str "active")]).finalParams =
            [("status", PVal.str "active")])) :=
  ⟨by decide, by decide,
    paginated_get_params_frame (fun _ => .ok (List.replicate 7 3)) 10
      [("status", PVal.str "active")] "status" (by decide) (by decide)⟩

theorem status_beq_true {st : Option String}
    (hst : st = some "Completed" ∨ st = some "Passed") :
    (st == some "Completed" || st == some "Passed") = true := by
  rcases hst with h | h <;> simp [h]

theorem status_beq_false {st : Option String}
    (hst : ¬(st = some "Completed" ∨ st = some "Passed")) :
    (st == some "Completed" || st == some "Passed") = false := by
  rcases h1 : st == some "Completed" with _ | _
  · rcases h2 : st == some "Passed" with _ | _
    · simp
    · exact absurd (Or.inr (eq_of_beq h2)) hst
  · exact absurd (Or.inl (eq_of_beq h1)) hst

theorem marksB_iff (mandatory : List String) (now : PyDateTime) (e : Enrollment) :
    marksB mandatory now e = true ↔
      (e.campaign_name ∈ mandatory ∧
        ¬(e.status = some "Completed" ∨ e.status = some "Passed") ∧
        (e.due_date = none ∨ e.due_date = some "" ∨
          ∃ s d, e.due_date = some s ∧ parseDateZ s = some d ∧
            PyDateTime.lt d now = true)) := by
  rcases e with ⟨uid, camp, st, due⟩
  by_cases hc : camp ∈ mandatory
  · by_cases hst : st = some "Completed" ∨ st = some "Passed"
    · simp [marksB, hc, status_beq_true hst, hst]
    · have hb := status_beq_false hst
      cases due with
      | none => simp [marksB, hc, hb, hst]
      | some s =>
        by_cases hs : s = ""
        · subst hs
          simp [marksB, hc, hb, hst]
        · cases hp : parseDateZ s with
          | none => simp [marksB, hc, hb, hst, hs, hp]
          | some d =>
            cases hlt : PyDateTime.lt d now with
            | true => simp [marksB, hc, hb, hst, hs, hp, hlt]
            | false => simp [marksB, hc, hb, hst, hs, hp, hlt]
  · simp [marksB, hc]

theorem raisesB_iff (mandatory : List String) (e : Enrollment) :
    raisesB mandatory e = true ↔
      (e.campaign_name ∈ mandatory ∧
        ¬(e.status = some "Completed" ∨ e.status = some "Passed") ∧
        ∃ s, e.due_date = some s ∧ s ≠ "" ∧ parseDateZ s = none) := by
  rcases e with ⟨uid, camp, st, due⟩
  by_cases hc : camp ∈ mandatory
  · by_cases hst : st = some "Completed" ∨ st = some "Passed"
    · simp [raisesB, hc, status_beq_true hst, hst]
    · have hb := status_beq_false hst
      cases due with
      | none => simp [raisesB, hc, hb, hst]
      | some s =>
        by_cases hs : s = ""
        · subst hs
          simp [raisesB, hc, hb, hst]
        · cases hp : parseDateZ s with
          | none => simp [raisesB, hc, hb, hst, hs, hp]
          | some d => simp [raisesB, hc, hb, hst, hs, hp]
  · simp [raisesB, hc]

theorem addNew_filter_self (a : List Nat) (uid : Nat) :
    (addNew a uid).filter (fun x => !(x == uid)) = a.filter (fun x => !(x == uid)) := by
  unfold addNew
  by_cases hmem : uid ∈ a
  · rw [if_pos hmem]
  · rw [if_neg hmem, List.filter_append]
    simp

theorem roundHalfEven_zero : roundHalfEven ((0 : ℚ) * 100) = 0 := by
  unfold roundHalfEven
  norm_num

theorem round2_zero : round2 0 = 0 := by
  unfold round2
  rw [roundHalfEven_zero]
  norm_num

/-- Due-date sanity of an enrollment: the due-date is falsy or parses.  Under
this condition the classification of the enrollment cannot raise, whatever
its status. -/
def dueOkB (e : Enrollment) : Bool :=
  match e.due_date with
  | none => true
  | some s => s == "" || (parseDateZ s).isSome

theorem raisesB_false_of_dueOk (mandatory : List String) (e e2 : Enrollment)
    (hdue : dueOkB e = true) (hsame : e2.due_date = e.due_date) :
    raisesB mandatory e2 = false := by
  cases hb : raisesB mandatory e2 with
  | false => rfl
  | true =>
    exfalso
    obtain ⟨-, -, s, hs, hne, hp⟩ := (raisesB_iff mandatory e2).mp hb
    rw [hsame] at hs
    unfold dueOkB at hdue
    rw [hs] at hdue
    simp only [Bool.or_eq_true, beq_iff_eq, Option.isSome_iff_exists] at hdue
    rcases hdue with h | ⟨d, hd⟩
    · exact hne h
    · rw [hp] at hd
      cases hd

theorem marksB_false_of_terminal {e : Enrollment}
    (hst : e.status = some "Completed" ∨ e.status = some "Passed")
    (mandatory : List String) (now : PyDateTime) :
    marksB mandatory now e = false := by
  cases hb : marksB mandatory now e with
  | false => rfl
  | true =>
    exfalso
    exact ((marksB_iff mandatory now e).mp hb).2.1 hst

/-- C1: a user id is in the untrained set computed by `analyse_training_data`
if and only if some enrollment of that user names a mandatory campaign, has a
status other than `Completed`/`Passed`, and has a falsy due-date (absent or
empty, both falsy to the code's truthiness test) or a due-date that parses to
a time strictly before the analysis clock (already elapsed); consequently a
user with no mandatory-campaign enrollment is never in the untrained set. -/
theorem untrained_membership_iff (mandatory : List String) (now : PyDateTime)
    (es : List Enrollment) (l : List Nat) (uid : Nat)
    (h : untrainedIds mandatory now es = .ok l) :
    (uid ∈ l ↔ ∃ e ∈ es, e.user_id = uid ∧
        (e.campaign_name ∈ mandatory ∧
          ¬(e.status = some "Completed" ∨ e.status = some "Passed") ∧
          (e.due_date = none ∨ e.due_date = some "" ∨
            ∃ s d, e.due_date = some s ∧ parseDateZ s = some d ∧
              PyDateTime.lt d now = true))) ∧
      ((∀ e ∈ es, e.user_id = uid → e.campaign_name ∉ mandatory) → uid ∉ l) := by
  have hmem := untrainedLoop_mem mandatory now es [] l h uid
  have hiff : uid ∈ l ↔ ∃ e ∈ es, e.user_id = uid ∧ marksB mandatory now e = true := by
    rw [hmem]
    simp
  constructor
  · rw [hiff]
    constructor
    · rintro ⟨e, he, hid, hm⟩
      exact ⟨e, he, hid, (marksB_iff mandatory now e).mp hm⟩
    · rintro ⟨e, he, hid, hm⟩
      exact ⟨e, he, hid, (marksB_iff mandatory now e).mpr hm⟩
  · intro hno huid
    rcases hiff.mp huid with ⟨e, he, hid, hm⟩
    exact hno e he hid ((marksB_iff mandatory now e).mp hm).1

/-- C1: witness for `untrained_membership_iff` at a concrete input. -/
theorem untrained_membership_iff_witness :
    untrainedIds ["M"] ⟨2025, 1, 1, 0, 0, 0, 0⟩
        [⟨1, "M", some "Failed", none⟩] = .ok [1] ∧
      ((1 ∈ [1] ↔ ∃ e ∈ [(⟨1, "M", some "Failed", none⟩ : Enrollment)],
          e.user_id = 1 ∧
          (e.campaign_name ∈ ["M"] ∧
            ¬(e.status = some "Completed" ∨ e.status = some "Passed") ∧
            (e.due_date = none ∨ e.due_date = some "" ∨
              ∃ s d, e.due_date = some s ∧ parseDateZ s = some d ∧
                PyDateTime.lt d ⟨2025, 1, 1, 0, 0, 0, 0⟩ = true))) ∧
        ((∀ e ∈ [(⟨1, "M", some "Failed", none⟩ : Enrollment)],
            e.user_id = 1 → e.campaign_name ∉ ["M"]) → 1 ∉ [1])) :=
  ⟨rfl, untrained_membership_iff ["M"] ⟨2025, 1, 1, 0, 0, 0, 0⟩
    [⟨1, "M", some "Failed", none⟩] [1] 1 rfl⟩

/-- C5: counterexample.  An `In Progress` mandatory-campaign enrollment whose
due-date parses to a time exactly equal to the analysis clock is NOT
classified untrained: line 167 compares with strict less-than, so the claim's
inclusive boundary (equal means untrained) fails on the code. -/
theorem due_date_equal_now_not_untrained :
    parseDateZ "2025-06-15T12:00:00Z" = some ⟨2025, 6, 15, 12, 0, 0, 0⟩ ∧
      untrainedIds ["M"] ⟨2025, 6, 15, 12, 0, 0, 0⟩
          [⟨1, "M", some "In Progress", some "2025-06-15T12:00:00Z"⟩] = .ok [] :=
  ⟨rfl, rfl⟩

/-- C5 (amended): for a mandatory-campaign `In Progress` enrollment whose
due-date parses, the user is classified untrained exactly when the due-date is
strictly before the analysis clock; a due-date equal to the clock (or later)
does not mark the user untrained. -/
theorem due_date_boundary_strict (mandatory : List String) (now : PyDateTime)
    (e : Enrollment) (s : String) (d : PyDateTime)
    (hm : e.campaign_name ∈ mandatory) (hst : e.status = some "In Progress")
    (hdue : e.due_date = some s) (hp : parseDateZ s = some d) :
    untrainedIds mandatory now [e] =
      .ok (if PyDateTime.lt d now then [e.user_id] else []) := by
  have hne : s ≠ "" := by
    intro h0
    subst h0
    rw [show parseDateZ "" = none from rfl] at hp
    cases hp
  have hr : raisesB mandatory e = false := by
    cases hb : raisesB mandatory e with
    | false => rfl
    | true =>
      exfalso
      obtain ⟨-, -, s2, hs2, -, hp2⟩ := (raisesB_iff mandatory e).mp hb
      rw [hdue] at hs2
      cases hs2
      rw [hp] at hp2
      cases hp2
  have hnterm : ¬(e.status = some "Completed" ∨ e.status = some "Passed") := by
    rw [hst]
    rintro (h0 | h0) <;> simp at h0
  have hmk : marksB mandatory now e = PyDateTime.lt d now := by
    cases hlt : PyDateTime.lt d now with
    | true =>
      exact (marksB_iff mandatory now e).mpr
        ⟨hm, hnterm, Or.inr (Or.inr ⟨s, d, hdue, hp, hlt⟩)⟩
    | false =>
      cases hb : marksB mandatory now e with
      | false => rfl
      | true =>
        exfalso
        obtain ⟨-, -, hdd⟩ := (marksB_iff mandatory now e).mp hb
        rcases hdd with h0 | h0 | ⟨s2, d2, hs2, hp2, hlt2⟩
        · rw [hdue] at h0
          cases h0
        · rw [hdue] at h0
          cases h0
          exact hne rfl
        · rw [hdue] at hs2
          cases hs2
          rw [hp] at hp2
          cases hp2
          rw [hlt] at hlt2
          cases hlt2
  show untrainedLoop mandatory now [e] [] =
    .ok (if PyDateTime.lt d now then [e.user_id] else [])
  rw [untrainedLoop, untrainedStep_spec, hr]
  simp only [Bool.false_eq_true, if_false, hmk]
  cases PyDateTime.lt d now <;> simp [untrainedLoop, addNew]

/-- C5: witness for `due_date_boundary_strict` at a concrete input (a due-date
far in the past, strictly before the clock). -/
theorem due_date_boundary_strict_witness :
    (("M" : String) ∈ ["M"] ∧
      (⟨7, "M", some "In Progress", some "2000-01-01T00:00:00Z"⟩ : Enrollment).status =
        some "In Progress" ∧
      (⟨7, "M", some "In Progress", some "2000-01-01T00:00:00Z"⟩ : Enrollment).due_date =
        some "2000-01-01T00:00:00Z" ∧
      parseDateZ "2000-01-01T00:00:00Z" = some ⟨2000, 1, 1, 0, 0, 0, 0⟩) ∧
      untrainedIds ["M"] ⟨2025, 1, 1, 0, 0, 0, 0⟩
          [⟨7, "M", some "In Progress", some "2000-01-01T00:00:00Z"⟩] =
        .ok (if PyDateTime.lt ⟨2000, 1, 1, 0, 0, 0, 0⟩ ⟨2025, 1, 1, 0, 0, 0, 0⟩
          then [7] else []) :=
  ⟨⟨by decide, rfl, rfl, by decide⟩,
    due_date_boundary_strict ["M"] ⟨2025, 1, 1, 0, 0, 0, 0⟩
      ⟨7, "M", some "In Progress", some "2000-01-01T00:00:00Z"⟩
      "2000-01-01T00:00:00Z" ⟨2000, 1, 1, 0, 0, 0, 0⟩
      (by decide) rfl rfl (by decide)⟩

/-- C9: counterexample.  Replacing a mandatory-campaign enrollment's status
`Completed` by another value does not always yield an untrained set at all:
with an unparseable due-date the `Completed` run returns a report while the
modified run raises, so the claimed superset relation has no right-hand side. -/
theorem completed_to_failed_can_raise :
    untrainedIds ["M"] ⟨2025, 1, 1, 0, 0, 0, 0⟩
        [⟨1, "M", some "Completed", some "garbage"⟩] = .ok [] ∧
      untrainedIds ["M"] ⟨2025, 1, 1, 0, 0, 0, 0⟩
          [⟨1, "M", some "Failed", some "garbage"⟩] =
        .error (.dateParse "garbage") :=
  ⟨rfl, rfl⟩

/-- C9 (amended): provided the modified enrollment's due-date is falsy or
parses, replacing a mandatory-campaign enrollment's status `Completed` by any
other value yields an untrained set that contains the original one and adds at
most that enrollment's user id; no other user is removed or added. -/
theorem status_change_monotonic (mandatory : List String) (now : PyDateTime)
    (l1 l2 : List Enrollment) (e : Enrollment) (snew : Option String) (r : List Nat)
    (hm : e.campaign_name ∈ mandatory) (hst : e.status = some "Completed")
    (hdue : dueOkB e = true)
    (h : untrainedIds mandatory now (l1 ++ e :: l2) = .ok r) :
    ∃ r2, untrainedIds mandatory now (l1 ++ { e with status := snew } :: l2) = .ok r2 ∧
      (∀ x, x ∈ r → x ∈ r2) ∧ (∀ x, x ∈ r2 → x ∈ r ∨ x = e.user_id) := by
  have hfree : ∀ f ∈ l1 ++ e :: l2, raisesB mandatory f = false :=
    untrainedLoop_error_free mandatory now _ [] r h
  have hfree2 : ∀ f ∈ l1 ++ { e with status := snew } :: l2, raisesB mandatory f = false := by
    intro f hf
    rcases List.mem_append.mp hf with hf1 | hf2
    · exact hfree f (List.mem_append.mpr (Or.inl hf1))
    · rcases List.mem_cons.mp hf2 with rfl | hf3
      · exact raisesB_false_of_dueOk mandatory e { e with status := snew } hdue rfl
      · exact hfree f (List.mem_append.mpr (Or.inr (List.mem_cons_of_mem e hf3)))
  obtain ⟨r2, hr2⟩ := untrainedLoop_ok_of_error_free mandatory now _ [] hfree2
  have hmem1 := untrainedLoop_mem mandatory now _ [] r h
  have hmem2 := untrainedLoop_mem mandatory now _ [] r2 hr2
  have hmarks_e : marksB mandatory now e = false :=
    marksB_false_of_terminal (Or.inl hst) mandatory now
  refine ⟨r2, hr2, ?_, ?_⟩
  · intro x hx
    rcases (hmem1 x).mp hx with hF | ⟨f, hf, hfid, hfm⟩
    · cases hF
    · apply (hmem2 x).mpr
      right
      rcases List.mem_append.mp hf with hf1 | hf2
      · exact ⟨f, List.mem_append.mpr (Or.inl hf1), hfid, hfm⟩
      · rcases List.mem_cons.mp hf2 with rfl | hf3
        · rw [hmarks_e] at hfm
          cases hfm
        · exact ⟨f, List.mem_append.mpr (Or.inr (List.mem_cons_of_mem _ hf3)), hfid, hfm⟩
  · intro x hx
    rcases (hmem2 x).mp hx with hF | ⟨f, hf, hfid, hfm⟩
    · cases hF
    · rcases List.mem_append.mp hf with hf1 | hf2
      · exact Or.inl ((hmem1 x).mpr (Or.inr ⟨f, List.mem_append.mpr (Or.inl hf1), hfid, hfm⟩))
      · rcases List.mem_cons.mp hf2 with rfl | hf3
        · right
          rw [← hfid]
        · exact Or.inl ((hmem1 x).mpr
            (Or.inr ⟨f, List.mem_append.mpr (Or.inr (List.mem_cons_of_mem _ hf3)), hfid, hfm⟩))

/-- C9: witness for `status_change_monotonic` at a concrete input. -/
theorem status_change_monotonic_witness :
    (("M" : String) ∈ ["M"] ∧
      (⟨1, "M", some "Completed", none⟩ : Enrollment).status = some "Completed" ∧
      dueOkB ⟨1, "M", some "Completed", none⟩ = true ∧
      untrainedIds ["M"] ⟨2025, 1, 1, 0, 0, 0, 0⟩
        ([] ++ ⟨1, "M", some "Completed", none⟩ :: []) = .ok []) ∧
      (∃ r2, untrainedIds ["M"] ⟨2025, 1, 1, 0, 0, 0, 0⟩
          ([] ++ { (⟨1, "M", some "Completed", none⟩ : Enrollment) with
            status := some "Failed" } :: []) = .ok r2 ∧
        (∀ x, x ∈ ([] : List Nat) → x ∈ r2) ∧
        (∀ x, x ∈ r2 → x ∈ ([] : List Nat) ∨ x = 1)) :=
  ⟨⟨by decide, rfl, rfl, rfl⟩,
    status_change_monotonic ["M"] ⟨2025, 1, 1, 0, 0, 0, 0⟩ [] []
      ⟨1, "M", some "Completed", none⟩ (some "Failed") []
      (by decide) rfl rfl rfl⟩

theorem analyse_eq_of_ids (optionalFields : List String) (users : List User)
    (enrollments : List Enrollment) (mandatory : List String) (now : PyDateTime)
    (l : List Nat) (hl : untrainedIds mandatory now enrollments = .ok l) :
    analyse_training_data optionalFields users enrollments mandatory now =
      .ok { metrics := { totalUsers := users.length
                         totalUntrained := l.length
                         completionRate := round2 (if users.length = 0 then 0
                           else (((users.length : ℤ) - (l.length : ℤ) : ℚ) /
                             (users.length : ℚ)) * 100) }
            untrained_users := untrainedRows users optionalFields l } := by
  unfold analyse_training_data
  rw [hl]

/-- C3: counterexample.  The completion rate is not always in the interval
0 to 100: enrollments whose user ids do not occur among the fetched users
still enter the untrained count, so one user with two foreign untrained
enrollments yields a rate of minus 100. -/
theorem completion_rate_below_zero :
    ∃ q : ℚ, analyse_training_data [] [⟨1, "A", "B", "a@x.com", none, []⟩]
        [⟨2, "M", some "Failed", none⟩, ⟨3, "M", some "Failed", none⟩] ["M"]
        ⟨2025, 1, 1, 0, 0, 0, 0⟩ = .ok ⟨⟨1, 2, q⟩, []⟩ ∧ q < 0 := by
  refine ⟨_, analyse_eq_of_ids [] [⟨1, "A", "B", "a@x.com", none, []⟩]
    [⟨2, "M", some "Failed", none⟩, ⟨3, "M", some "Failed", none⟩] ["M"]
    ⟨2025, 1, 1, 0, 0, 0, 0⟩ [2, 3] rfl, ?_⟩
  have harg : ((((1 : ℕ) : ℤ) - ((2 : ℕ) : ℤ) : ℚ) / ((1 : ℕ) : ℚ)) * 100 = -100 := by
    norm_num
  have h1 : round2 (((((1 : ℕ) : ℤ) - ((2 : ℕ) : ℤ) : ℚ) / ((1 : ℕ) : ℚ)) * 100) ≤
      ((-100 : ℤ) : ℚ) := by
    apply round2_le_of_le
    rw [harg]
    norm_num
  have h2 : (((-100 : ℤ) : ℚ)) < 0 := by norm_num
  calc round2 ((((1 : ℕ) : ℤ) - ((2 : ℕ) : ℤ) : ℚ) / ((1 : ℕ) : ℚ) * 100) ≤ _ := h1
    _ < 0 := h2

/-- C3 (amended): the completion rate is always at most 100 and equals 0 when
the users list is empty, but the claimed lower bound and the equals-0-only-
when-empty direction fail in general; whenever every untrained id occurs among
the input users' ids the rate does lie in the interval 0 to 100. -/
theorem completion_rate_bounds (optionalFields : List String) (users : List User)
    (es : List Enrollment) (mandatory : List String) (now : PyDateTime)
    (r : Report) (l : List Nat)
    (hl : untrainedIds mandatory now es = .ok l)
    (h : analyse_training_data optionalFields users es mandatory now = .ok r) :
    r.metrics.completionRate ≤ 100 ∧
      (users = [] → r.metrics.completionRate = 0) ∧
      ((∀ x ∈ l, ∃ u ∈ users, u.id = x) → 0 ≤ r.metrics.completionRate) := by
  rw [analyse_eq_of_ids optionalFields users es mandatory now l hl] at h
  injection h with hX
  subst hX
  simp only
  by_cases h0 : users.length = 0
  · rw [if_pos h0, round2_zero]
    refine ⟨by norm_num, fun _ => rfl, fun _ => le_refl 0⟩
  · rw [if_neg h0]
    have hT : 0 < (users.length : ℚ) := by
      exact_mod_cast Nat.pos_of_ne_zero h0
    have hU0 : (0 : ℚ) ≤ ((l.length : ℤ) : ℚ) := by positivity
    refine ⟨?_, ?_, ?_⟩
    · have hA : ((users.length : ℤ) - (l.length : ℤ) : ℚ) ≤ (users.length : ℚ) := by
        push_cast
        linarith
      have hdiv : ((users.length : ℤ) - (l.length : ℤ) : ℚ) / (users.length : ℚ) ≤ 1 :=
        (div_le_one hT).mpr hA
      have hmul := mul_le_mul_of_nonneg_right hdiv (by norm_num : (0 : ℚ) ≤ 100)
      rw [one_mul] at hmul
      have hraw : (((users.length : ℤ) - (l.length : ℤ) : ℚ) / (users.length : ℚ)) * 100 ≤
          ((100 : ℤ) : ℚ) := by
        push_cast at hmul ⊢
        linarith
      have := round2_le_of_le hraw
      push_cast at this
      exact this
    · intro hnil
      exact absurd (by simp [hnil]) h0
    · intro hsub
      have hnodup : l.Nodup := untrainedLoop_nodup mandatory now es [] l List.nodup_nil hl
      have hlen : l.length ≤ users.length := by
        have hc1 : l.toFinset.card = l.length := List.toFinset_card_of_nodup hnodup
        have hc2 : l.toFinset ⊆ (users.map User.id).toFinset := by
          intro x hx
          rcases hsub x (List.mem_toFinset.mp hx) with ⟨u, hu, hux⟩
          exact List.mem_toFinset.mpr (List.mem_map.mpr ⟨u, hu, hux⟩)
        have hc3 := Finset.card_le_card hc2
        have hc4 : (users.map User.id).toFinset.card ≤ (users.map User.id).length :=
          List.toFinset_card_le _
        rw [List.length_map] at hc4
        omega
      apply round2_nonneg
      have hA : (0 : ℚ) ≤ ((users.length : ℤ) - (l.length : ℤ) : ℚ) := by
        push_cast
        have : ((l.length : ℚ)) ≤ (users.length : ℚ) := by exact_mod_cast hlen
        linarith
      positivity

/-- C3: witness for `completion_rate_bounds` at a concrete input. -/
theorem completion_rate_bounds_witness :
    (untrainedIds ["M"] ⟨2025, 1, 1, 0, 0, 0, 0⟩ [] = .ok [] ∧
      analyse_training_data [] [] [] ["M"] ⟨2025, 1, 1, 0, 0, 0, 0⟩ =
        .ok ⟨⟨0, 0, round2 0⟩, []⟩) ∧
      ((⟨⟨0, 0, round2 0⟩, []⟩ : Report).metrics.completionRate ≤ 100 ∧
        (([] : List User) = [] →
          (⟨⟨0, 0, round2 0⟩, []⟩ : Report).metrics.completionRate = 0) ∧
        ((∀ x ∈ ([] : List Nat), ∃ u ∈ ([] : List User), u.id = x) →
          0 ≤ (⟨⟨0, 0, round2 0⟩, []⟩ : Report).metrics.completionRate)) :=
  ⟨⟨rfl, rfl⟩,
    completion_rate_bounds [] [] [] ["M"] ⟨2025, 1, 1, 0, 0, 0, 0⟩
      ⟨⟨0, 0, round2 0⟩, []⟩ [] rfl rfl⟩

/-- C7: the metrics of the report are exactly: Total Users is the length of
the input users list (duplicates not deduplicated), Total Untrained Users is
the cardinality of the untrained-id set, and the completion rate is
(T - U) / T times 100 rounded to two decimal places, with 0 when T is 0. -/
theorem metrics_formulas (optionalFields : List String) (users : List User)
    (es : List Enrollment) (mandatory : List String) (now : PyDateTime)
    (r : Report) (l : List Nat)
    (hl : untrainedIds mandatory now es = .ok l)
    (h : analyse_training_data optionalFields users es mandatory now = .ok r) :
    r.metrics.totalUsers = users.length ∧
      l.Nodup ∧
      r.metrics.totalUntrained = l.toFinset.card ∧
      (users.length = 0 → r.metrics.completionRate = 0) ∧
      (users.length ≠ 0 → r.metrics.completionRate =
        round2 ((((users.length : ℤ) - (l.toFinset.card : ℤ) : ℚ) /
          (users.length : ℚ)) * 100)) := by
  rw [analyse_eq_of_ids optionalFields users es mandatory now l hl] at h
  injection h with hX
  subst hX
  have hnodup : l.Nodup := untrainedLoop_nodup mandatory now es [] l List.nodup_nil hl
  have hcard : l.toFinset.card = l.length := List.toFinset_card_of_nodup hnodup
  refine ⟨rfl, hnodup, ?_, ?_, ?_⟩
  · simp only
    omega
  · intro h0
    simp only
    rw [if_pos h0, round2_zero]
  · intro h0
    simp only
    rw [if_neg h0, hcard]

/-- C7: witness for `metrics_formulas` at a concrete input. -/
theorem metrics_formulas_witness :
    (untrainedIds ["M"] ⟨2025, 1, 1, 0, 0, 0, 0⟩ [] = .ok [] ∧
      analyse_training_data [] [⟨1, "A", "B", "a@x.com", none, []⟩] [] ["M"]
          ⟨2025, 1, 1, 0, 0, 0, 0⟩ =
        .ok ⟨⟨1, 0, round2 (((((1 : ℕ) : ℤ) - ((0 : ℕ) : ℤ) : ℚ) /
          ((1 : ℕ) : ℚ)) * 100)⟩, []⟩) ∧
      ((⟨⟨1, 0, round2 (((((1 : ℕ) : ℤ) - ((0 : ℕ) : ℤ) : ℚ) /
            ((1 : ℕ) : ℚ)) * 100)⟩, []⟩ : Report).metrics.totalUsers =
          ([⟨1, "A", "B", "a@x.com", none, []⟩] : List User).length ∧
        ([] : List Nat).Nodup ∧
        (⟨⟨1, 0, round2 (((((1 : ℕ) : ℤ) - ((0 : ℕ) : ℤ) : ℚ) /
            ((1 : ℕ) : ℚ)) * 100)⟩, []⟩ : Report).metrics.totalUntrained =
          ([] : List Nat).toFinset.card ∧
        (([⟨1, "A", "B", "a@x.com", none, []⟩] : List User).length = 0 →
          (⟨⟨1, 0, round2 (((((1 : ℕ) : ℤ) - ((0 : ℕ) : ℤ) : ℚ) /
            ((1 : ℕ) : ℚ)) * 100)⟩, []⟩ : Report).metrics.completionRate = 0) ∧
        (([⟨1, "A", "B", "a@x.com", none, []⟩] : List User).length ≠ 0 →
          (⟨⟨1, 0, round2 (((((1 : ℕ) : ℤ) - ((0 : ℕ) : ℤ) : ℚ) /
            ((1 : ℕ) : ℚ)) * 100)⟩, []⟩ : Report).metrics.completionRate =
            round2 ((((([⟨1, "A", "B", "a@x.com", none, []⟩] : List User).length : ℤ) -
              (([] : List Nat).toFinset.card : ℤ) : ℚ) /
              (([⟨1, "A", "B", "a@x.com", none, []⟩] : List User).length : ℚ)) * 100))) :=
  ⟨⟨rfl, rfl⟩,
    metrics_formulas [] [⟨1, "A", "B", "a@x.com", none, []⟩] [] ["M"]
      ⟨2025, 1, 1, 0, 0, 0, 0⟩
      ⟨⟨1, 0, round2 (((((1 : ℕ) : ℤ) - ((0 : ℕ) : ℤ) : ℚ) /
        ((1 : ℕ) : ℚ)) * 100)⟩, []⟩ [] rfl rfl⟩

/-- C4: counterexample.  An enrollment whose user id is absent from the users
list does change the report: it enters the untrained count and hence the
completion rate, so the report with the enrollment differs from the report
without it. -/
theorem foreign_enrollment_changes_report :
    ∃ q1 q2 : ℚ,
      analyse_training_data [] [⟨1, "A", "B", "a@x.com", none, []⟩]
          [⟨2, "M", some "Failed", none⟩] ["M"] ⟨2025, 1, 1, 0, 0, 0, 0⟩ =
        .ok ⟨⟨1, 1, q1⟩, []⟩ ∧
      analyse_training_data [] [⟨1, "A", "B", "a@x.com", none, []⟩]
          [] ["M"] ⟨2025, 1, 1, 0, 0, 0, 0⟩ = .ok ⟨⟨1, 0, q2⟩, []⟩ ∧
      (⟨⟨1, 1, q1⟩, []⟩ : Report) ≠ ⟨⟨1, 0, q2⟩, []⟩ := by
  refine ⟨_, _,
    analyse_eq_of_ids [] [⟨1, "A", "B", "a@x.com", none, []⟩]
      [⟨2, "M", some "Failed", none⟩] ["M"] ⟨2025, 1, 1, 0, 0, 0, 0⟩ [2] rfl,
    analyse_eq_of_ids [] [⟨1, "A", "B", "a@x.com", none, []⟩]
      [] ["M"] ⟨2025, 1, 1, 0, 0, 0, 0⟩ [] rfl, ?_⟩
  intro hEq
  have := congrArg (fun rep => rep.metrics.totalUntrained) hEq
  simp at this

/-- C4 (amended): an enrollment whose user id is absent from the users list
leaves the untrained-user detail rows and Total Users unchanged when removed;
only the untrained-id set may change, and then only by that enrollment's own
user id. -/
theorem foreign_enrollment_effect (optionalFields : List String)
    (users : List User) (mandatory : List String) (now : PyDateTime)
    (l1 l2 : List Enrollment) (e : Enrollment) (r : Report)
    (hforeign : ∀ u ∈ users, u.id ≠ e.user_id)
    (h : analyse_training_data optionalFields users (l1 ++ e :: l2) mandatory now = .ok r) :
    ∃ r2 lw lo,
      analyse_training_data optionalFields users (l1 ++ l2) mandatory now = .ok r2 ∧
      untrainedIds mandatory now (l1 ++ e :: l2) = .ok lw ∧
      untrainedIds mandatory now (l1 ++ l2) = .ok lo ∧
      r.untrained_users = r2.untrained_users ∧
      r.metrics.totalUsers = r2.metrics.totalUsers ∧
      (∀ x, x ≠ e.user_id → (x ∈ lw ↔ x ∈ lo)) := by
  cases hw : untrainedIds mandatory now (l1 ++ e :: l2) with
  | error err =>
    unfold analyse_training_data at h
    rw [hw] at h
    exact Except.noConfusion h
  | ok lw =>
  have hw' : untrainedLoop mandatory now (l1 ++ e :: l2) [] = .ok lw := hw
  rw [untrainedLoop_append] at hw'
  cases h1 : untrainedLoop mandatory now l1 [] with
  | error err =>
    rw [h1] at hw'
    exact Except.noConfusion hw'
  | ok a =>
  rw [h1] at hw'
  simp only at hw'
  rw [untrainedLoop, untrainedStep_spec] at hw'
  by_cases hre : raisesB mandatory e
  · rw [if_pos hre] at hw'
    exact Except.noConfusion hw'
  · rw [if_neg hre] at hw'
    simp only at hw'
    have hfilter : (if marksB mandatory now e = true then addNew a e.user_id else a).filter
        (fun x => !(x == e.user_id)) = a.filter (fun x => !(x == e.user_id)) := by
      by_cases hm : marksB mandatory now e = true
      · rw [if_pos hm]
        exact addNew_filter_self a e.user_id
      · rw [if_neg hm]
    obtain ⟨lo, hlo, hfeq⟩ :=
      untrainedLoop_filter_congr mandatory now e.user_id l2 _ a lw hfilter hw'
    have hwo : untrainedIds mandatory now (l1 ++ l2) = .ok lo := by
      show untrainedLoop mandatory now (l1 ++ l2) [] = .ok lo
      rw [untrainedLoop_append, h1]
      exact hlo
    have hAw := analyse_eq_of_ids optionalFields users (l1 ++ e :: l2) mandatory now lw hw
    rw [hAw] at h
    injection h with hX
    have hAo := analyse_eq_of_ids optionalFields users (l1 ++ l2) mandatory now lo hwo
    refine ⟨_, lw, lo, hAo, rfl, hwo, ?_, ?_, ?_⟩
    · rw [← hX]
      simp only
      unfold untrainedRows
      have hnone : ∀ x, (fun y => !(y == e.user_id)) x = false →
          (fun uid => (userLookup users uid).map (mkRow optionalFields)) x = none := by
        intro x hx
        have hxe : x = e.user_id := by simpa using hx
        subst hxe
        show (userLookup users e.user_id).map (mkRow optionalFields) = none
        rw [userLookup_eq_none hforeign]
        rfl
      rw [filterMap_eq_filterMap_filter _ _ hnone lw,
        filterMap_eq_filterMap_filter _ _ hnone lo, hfeq]
    · rw [← hX]
    · intro x hx
      have hxb : (!(x == e.user_id)) = true := by simpa using hx
      constructor
      · intro hxl
        have hmem : x ∈ lw.filter (fun y => !(y == e.user_id)) :=
          List.mem_filter.mpr ⟨hxl, hxb⟩
        rw [hfeq] at hmem
        exact (List.mem_filter.mp hmem).1
      · intro hxl
        have hmem : x ∈ lo.filter (fun y => !(y == e.user_id)) :=
          List.mem_filter.mpr ⟨hxl, hxb⟩
        rw [← hfeq] at hmem
        exact (List.mem_filter.mp hmem).1

/-- C4: witness for `foreign_enrollment_effect` at a concrete input. -/
theorem foreign_enrollment_effect_witness :
    ((∀ u ∈ ([] : List User), u.id ≠ 2) ∧
      analyse_training_data [] [] ([] ++ ⟨2, "M", some "Failed", none⟩ :: []) ["M"]
          ⟨2025, 1, 1, 0, 0, 0, 0⟩ = .ok ⟨⟨0, 1, round2 0⟩, []⟩) ∧
      (∃ r2 lw lo,
        analyse_training_data [] [] ([] ++ []) ["M"] ⟨2025, 1, 1, 0, 0, 0, 0⟩ = .ok r2 ∧
        untrainedIds ["M"] ⟨2025, 1, 1, 0, 0, 0, 0⟩
          ([] ++ ⟨2, "M", some "Failed", none⟩ :: []) = .ok lw ∧
        untrainedIds ["M"] ⟨2025, 1, 1, 0, 0, 0, 0⟩ ([] ++ []) = .ok lo ∧
        (⟨⟨0, 1, round2 0⟩, []⟩ : Report).untrained_users = r2.untrained_users ∧
        (⟨⟨0, 1, round2 0⟩, []⟩ : Report).metrics.totalUsers = r2.metrics.totalUsers ∧
        (∀ x, x ≠ 2 → (x ∈ lw ↔ x ∈ lo))) :=
  ⟨⟨by decide, rfl⟩,
    foreign_enrollment_effect [] [] ["M"] ⟨2025, 1, 1, 0, 0, 0, 0⟩ [] []
      ⟨2, "M", some "Failed", none⟩ ⟨⟨0, 1, round2 0⟩, []⟩ (by decide) rfl⟩

end KB4
